import Mathlib

/-!
Shallow embedding of the warden image-trust validator.

The embedding follows the Go sources:
* the validation engine (`Validate`, `isImageAllowed`, `parseCredentials`,
  `getNotaryImageDigestHash`, `parseNotaryErr`, `getRepositoryDigestHash`,
  `getIndexDigestHash`, `getImageDigestHash`) from the `validate` package;
* the admission webhook (`handle`, `labelPod`, `LabelForValidationResult`,
  `handleWithTimeout`) from the `admission` package.

External collaborators (the container-registry transport, the trust-authority
client, the admission decoder, the Kubernetes API) are modelled as oracle
functions supplied as parameters: each oracle value fixes one possible
behaviour of the outside world, and theorems quantify over them.
-/

namespace Warden

/-- Raw digest bytes (Go `[]byte` after hex decoding). -/
abbrev Bytes := List Nat

/-- The two error kinds of the `pkg` package.
Modelled from the spec: the `pkg` error constructors
(`NewValidationFailedErr`, `NewUnknownResultErr`) are not under `src/`;
the spec describes exactly two user-facing error kinds, `ValidationFailed`
and `UnknownResult`, each carrying a message. -/
inductive WardenErr where
  | validationFailed (msg : String)
  | unknownResult (msg : String)
deriving DecidableEq, Repr

/-- Go `subtle.ConstantTimeCompare`: 0 when the lengths differ, otherwise
1 exactly when the accumulated OR of byte-wise XORs is zero. -/
def constantTimeCompare (x y : Bytes) : Nat :=
  if x.length = y.length then
    if (List.zipWith Nat.xor x y).foldl Nat.lor 0 = 0 then 1 else 0
  else 0

/-- Go `strings.Contains`: some suffix of `s` has `sub` as a prefix. -/
def strContains (s sub : String) : Bool :=
  s.data.tails.any fun t => sub.data.isPrefixOf t

/-- Association-list lookup standing in for a Go map read (keys are unique
in a Go map, so first-match lookup is an exact model). -/
def lookupKey {α : Type} (m : List (String × α)) (k : String) : Option α :=
  match m with
  | [] => none
  | (k₂, v) :: rest => if k₂ = k then some v else lookupKey rest k

/-- Association-list insertion standing in for a Go map write. -/
def mapInsert (m : List (String × String)) (k v : String) : List (String × String) :=
  match m with
  | [] => [(k, v)]
  | (k₂, v₂) :: rest => if k₂ = k then (k, v) :: rest else (k₂, v₂) :: mapInsert rest k v

/-- Value of one hexadecimal digit, as in Go `encoding/hex`. -/
def hexDigitVal (c : Char) : Option Nat :=
  if '0' ≤ c ∧ c ≤ '9' then some (c.toNat - '0'.toNat)
  else if 'a' ≤ c ∧ c ≤ 'f' then some (c.toNat - 'a'.toNat + 10)
  else if 'A' ≤ c ∧ c ≤ 'F' then some (c.toNat - 'A'.toNat + 10)
  else none

/-- Go `hex.DecodeString` on a character list: two digits per byte, failing
on odd length or a non-hex character. -/
def hexDecodeChars : List Char → Option Bytes
  | [] => some []
  | [_] => none
  | c₁ :: c₂ :: rest => do
      let hi ← hexDigitVal c₁
      let lo ← hexDigitVal c₂
      let tail ← hexDecodeChars rest
      pure ((16 * hi + lo) :: tail)

/-- Go `hex.DecodeString`. -/
def hexDecode (s : String) : Option Bytes :=
  hexDecodeChars s.data

/-- Value of one standard base64 alphabet character. -/
def b64Val (c : Char) : Option Nat :=
  if 'A' ≤ c ∧ c ≤ 'Z' then some (c.toNat - 'A'.toNat)
  else if 'a' ≤ c ∧ c ≤ 'z' then some (c.toNat - 'a'.toNat + 26)
  else if '0' ≤ c ∧ c ≤ '9' then some (c.toNat - '0'.toNat + 52)
  else if c = '+' then some 62
  else if c = '/' then some 63
  else none

/-- Go `base64.StdEncoding` decoding of whole 4-character quanta; `=`
padding is legal only at the very end, trailing bits are discarded
(the standard encoding is not strict about them), and any other
misplacement or a bad character fails. -/
def base64DecodeQuanta : List Char → Option Bytes
  | [] => some []
  | [c₁, c₂, '=', '='] => do
      let a ← b64Val c₁
      let b ← b64Val c₂
      pure [a * 4 + b / 16]
  | [c₁, c₂, c₃, '='] => do
      let a ← b64Val c₁
      let b ← b64Val c₂
      let c ← b64Val c₃
      pure [a * 4 + b / 16, (b % 16) * 16 + c / 4]
  | c₁ :: c₂ :: c₃ :: c₄ :: rest => do
      if c₃ = '=' ∨ c₄ = '=' then none
      else
        let a ← b64Val c₁
        let b ← b64Val c₂
        let c ← b64Val c₃
        let d ← b64Val c₄
        let tail ← base64DecodeQuanta rest
        pure ((a * 4 + b / 16) :: ((b % 16) * 16 + c / 4) :: ((c % 4) * 64 + d) :: tail)
  | _ => none

/-- Go `base64.StdEncoding.DecodeString` (newline characters are skipped
by the Go decoder before quanta are formed). -/
def base64Decode (s : String) : Option Bytes :=
  base64DecodeQuanta (s.data.filter fun c => c ≠ '\r' ∧ c ≠ '\n')

/-- Go `strings.Split` on a single-byte separator, over the decoded bytes:
always returns one more piece than there are separators, pieces may be
empty. -/
def splitOnByte (sep : Nat) : Bytes → List Bytes
  | [] => [[]]
  | b :: rest =>
    match splitOnByte sep rest with
    | [] => [[b]]
    | h :: t => if b = sep then [] :: h :: t else (b :: h) :: t

/-- Go `string(bytes)`: one character per byte (Go strings are byte
sequences; this keeps splitting and equality byte-faithful). -/
def bytesToString (bs : Bytes) : String :=
  String.mk (bs.map Char.ofNat)

/-- Docker CLI `types.AuthConfig`, restricted to the fields the code reads
(`Username`, `Password`, `RegistryToken`, `Auth`). -/
structure AuthConfig where
  username : String
  password : String
  registryToken : String
  auth : String
deriving DecidableEq, Repr

/-- The `authn` authenticators produced by `parseCredentials`:
`authn.Basic` or `authn.Bearer`. -/
inductive Authenticator where
  | basic (username password : String)
  | bearer (token : String)
deriving DecidableEq, Repr

/-- Go `parseCredentials`: classify a single credential record into an
authenticator, or fail with a `ValidationFailed` error. -/
def parseCredentials (credentials : AuthConfig) : Except WardenErr Authenticator :=
  if credentials.username ≠ "" ∧ credentials.password ≠ "" then
    .ok (.basic credentials.username credentials.password)
  else if credentials.registryToken ≠ "" then
    .ok (.bearer credentials.registryToken)
  else if credentials.auth ≠ "" then
    match base64Decode credentials.auth with
    | none => .error (.validationFailed "cannot decode base64 encoded auth")
    | some decodedCredentials =>
      match splitOnByte 58 decodedCredentials with
      | [u, p] => .ok (.basic (bytesToString u) (bytesToString p))
      | _ => .error (.validationFailed "invalid auth format, expected username:password form")
  else
    .error (.validationFailed "unknown auth secret format")

/-- An image reference after `name.ParseReference` (external library):
the pieces of it the code reads, namely `ref.Context().RegistryStr()`,
`ref.Context().Name()` and `ref.Identifier()`. -/
structure Reference where
  registryHost : String
  repoName : String
  identifier : String
deriving DecidableEq, Repr

/-- A trust-authority target: a map from hash-algorithm name to digest
bytes, as an association list. -/
structure NotaryTarget where
  hashes : List (String × Bytes)
deriving DecidableEq, Repr

/-- One connected trust-authority client: its `GetTargetByName` behaviour
(an oracle for the external notary collaborator). -/
structure RepoClient where
  getTargetByName : String → Except String NotaryTarget

/-- The `RepoFactory` collaborator: `NewRepoClient` either fails or yields
a client (the notary configuration is baked into the oracle). -/
structure RepoFactory where
  newRepoClient : String → Except String RepoClient

/-- Go `parseNotaryErr`: reclassify a trust-authority lookup error by its
message text. -/
def parseNotaryErr (errMsg : String) : WardenErr :=
  if strContains errMsg "does not have trust data for" then .validationFailed errMsg
  else if strContains errMsg "No valid trust data for" then .validationFailed errMsg
  else .unknownResult errMsg

/-- Go `notaryService.getNotaryImageDigestHash`: build a client for the
repository, look up the target by identifier, and demand exactly one hash.
The Go code counts `target.Hashes` and then loops over the keys to pick the
single one; the three-way match below is the same case split. -/
def getNotaryImageDigestHash (factory : RepoFactory) (ref : Reference) :
    Except WardenErr Bytes :=
  match factory.newRepoClient ref.repoName with
  | .error e => .error (.unknownResult e)
  | .ok c =>
    match c.getTargetByName ref.identifier with
    | .error e => .error (parseNotaryErr e)
    | .ok target =>
      match target.hashes with
      | [] => .error (.validationFailed "image hash is missing")
      | [(_, h)] => .ok h
      | _ :: _ :: _ => .error (.validationFailed "more than one hash for image")

/-- Media type of a fetched descriptor: the two predicates the code tests
(`IsIndex`, `IsImage`) and the fall-through. -/
inductive MediaKind where
  | index
  | image
  | other
deriving DecidableEq, Repr

/-- A registry descriptor, restricted to what the code reads. -/
structure Descriptor where
  mediaKind : MediaKind
deriving DecidableEq, Repr

/-- A fetched index object: its `Digest()` call yields a hex string or
fails. -/
structure IndexObj where
  digestHex : Except String String

/-- A fetched image object: its `Manifest()` call yields the config-blob
digest hex string or fails, and its `Digest()` call yields a hex string or
fails. -/
structure ImageObj where
  manifestConfigHex : Except String String
  digestHex : Except String String

/-- The registry transport oracle for one reference: what `remote.Get`,
`remote.Index` and `remote.Image` return, as a function of the
authentication option passed (none for the anonymous attempt). -/
structure RemoteRegistry where
  get : Option Authenticator → Except String Descriptor
  index : Option Authenticator → Except String IndexObj
  image : Option Authenticator → Except String ImageObj

/-- Go `getIndexDigestHash`: fetch the index, take its digest, hex-decode;
every failure is an `UnknownResult`. -/
def getIndexDigestHash (reg : RemoteRegistry) (auth : Option Authenticator) :
    Except WardenErr Bytes :=
  match reg.index auth with
  | .error e => .error (.unknownResult ("get image: " ++ e))
  | .ok i =>
    match i.digestHex with
    | .error e => .error (.unknownResult ("image digest: " ++ e))
    | .ok hex =>
      match hexDecode hex with
      | none => .error (.unknownResult "checksum error: %w")
      | some digestBytes => .ok digestBytes

/-- Go `getImageDigestHash`: fetch the image, take the manifest config
digest (the deprecated legacy hash) and the image digest, hex-decode both;
every failure is an `UnknownResult`. -/
def getImageDigestHash (reg : RemoteRegistry) (auth : Option Authenticator) :
    Except WardenErr (Bytes × Bytes) :=
  match reg.image auth with
  | .error e => .error (.unknownResult ("get image: " ++ e))
  | .ok i =>
    match i.manifestConfigHex with
    | .error e => .error (.unknownResult ("image manifest: " ++ e))
    | .ok configHex =>
      match hexDecode configHex with
      | none => .error (.unknownResult "manifest checksum error: %w")
      | some manifestBytes =>
        match i.digestHex with
        | .error e => .error (.unknownResult ("image digest: " ++ e))
        | .ok hex =>
          match hexDecode hex with
          | none => .error (.unknownResult "checksum error: %w")
          | some digestBytes => .ok (digestBytes, manifestBytes)

/-- Branch of `getRepositoryDigestHash` on the media type of the descriptor:
index yields `(digest, none)`, single image yields `(digest, some
manifestDigest)`, anything else is a `ValidationFailed`. -/
def digestsByMediaType (reg : RemoteRegistry) (auth : Option Authenticator)
    (descriptor : Descriptor) : Except WardenErr (Bytes × Option Bytes) :=
  match descriptor.mediaKind with
  | .index =>
    match getIndexDigestHash reg auth with
    | .error e => .error e
    | .ok digest => .ok (digest, none)
  | .image =>
    match getImageDigestHash reg auth with
    | .error e => .error e
    | .ok (digest, manifest) => .ok (digest, some manifest)
  | .other => .error (.validationFailed "not an image or image list")

/-- Go `notaryService.getRepositoryDigestHash`: look up a credential for
the registry host of the reference, try an anonymous descriptor fetch first,
fall back to an authenticated fetch only when a credential exists, then
branch on the media type. -/
def getRepositoryDigestHash (reg : RemoteRegistry) (ref : Reference)
    (imagePullCredentials : List (String × AuthConfig)) :
    Except WardenErr (Bytes × Option Bytes) :=
  match reg.get none with
  | .ok descriptor => digestsByMediaType reg none descriptor
  | .error e =>
    match lookupKey imagePullCredentials ref.registryHost with
    | none => .error (.unknownResult ("get image descriptor anonymously: " ++ e))
    | some credentials =>
      match parseCredentials credentials with
      | .error err => .error err
      | .ok auth =>
        match reg.get (some auth) with
        | .error e₂ => .error (.unknownResult ("get image descriptor: " ++ e₂))
        | .ok descriptor => digestsByMediaType reg (some auth) descriptor

/-- The `ServiceConfig` of the validator, restricted to the field the
engine reads (the notary configuration is baked into the factory oracle). -/
structure ServiceConfig where
  allowedRegistries : List String
deriving DecidableEq, Repr

/-- Go `strings.HasPrefix`: the second string is an initial segment of
the first, tested over the character sequence. -/
def strHasPrefix (s start : String) : Bool :=
  start.data.isPrefixOf s.data

/-- Go `notaryService.isImageAllowed`: the image string starts with some
configured prefix. -/
def isImageAllowed (cfg : ServiceConfig) (imgRepo : String) : Bool :=
  cfg.allowedRegistries.any fun allowed => strHasPrefix imgRepo allowed

/-- The external collaborators of one `Validate` call: the strict
reference parser (`name.ParseReference` with `StrictValidation`), the
trust-authority client factory, and the registry transport per parsed
reference. -/
structure ValidationEnv where
  parseReference : String → Except String Reference
  factory : RepoFactory
  registry : Reference → RemoteRegistry

/-- Go `notaryService.Validate`: allow-list short-circuit, strict parse,
notary digest, registry digests, constant-time compare with deprecated
manifest fallback. -/
def Validate (cfg : ServiceConfig) (env : ValidationEnv) (image : String)
    (imagePullCredentials : List (String × AuthConfig)) : Except WardenErr Unit :=
  if isImageAllowed cfg image then .ok ()
  else
    match env.parseReference image with
    | .error e => .error (.validationFailed ("image name could not be parsed: " ++ e))
    | .ok ref =>
      match getNotaryImageDigestHash env.factory ref with
      | .error e => .error e
      | .ok expectedShaBytes =>
        match getRepositoryDigestHash (env.registry ref) ref imagePullCredentials with
        | .error e => .error e
        | .ok (shaImageBytes, shaManifestBytes) =>
          if constantTimeCompare shaImageBytes expectedShaBytes = 1 then .ok ()
          else
            match shaManifestBytes with
            | some m =>
              if constantTimeCompare m expectedShaBytes = 1 then .ok ()
              else .error (.validationFailed "unexpected image hash value")
            | none => .error (.validationFailed "unexpected image hash value")

/-- The `validate.ValidationResult` enumeration.
Modelled from the spec: the `validate` package file defining it is not
under `src/`; the spec describes it as an ordered enumeration
`NoAction, Valid, Invalid, ServiceUnavailable` with unrecognized values
possible at the `switch` default, so it is embedded as an integer with
four named points. -/
abbrev ValidationResult := Int

/-- Result point: validation not applicable. -/
def NoAction : ValidationResult := 0

/-- Result point: image trusted. -/
def Valid : ValidationResult := 1

/-- Result point: image untrusted. -/
def Invalid : ValidationResult := 2

/-- Result point: indeterminate due to infrastructure failure. -/
def ServiceUnavailable : ValidationResult := 3

/-- The success label value.
Modelled from the spec: the `pkg` label constants are not under `src/`;
the spec names the three label values success, reject and pending. -/
def ValidationStatusSuccess : String := "success"

/-- The reject label value. Modelled from the spec: see
`ValidationStatusSuccess`. -/
def ValidationStatusReject : String := "reject"

/-- The pending label value. Modelled from the spec: see
`ValidationStatusSuccess`. -/
def ValidationStatusPending : String := "pending"

/-- The validation-status label key.
Modelled from the spec: `pkg.PodValidationLabel` is not under `src/`; the
spec calls it the validation-status label. -/
def PodValidationLabel : String := "validation-status"

/-- The admitted kind accepted by the dispatch layer. -/
def PodType : String := "Pod"

/-- A Pod, restricted to what the webhook reads and writes: its name, its
namespace name, and its label map (`none` models a nil Go map, which the
code must create before writing). -/
structure Pod where
  name : String
  namespaceName : String
  labels : Option (List (String × String))
deriving DecidableEq, Repr

/-- A Namespace object as fetched from the cluster. -/
structure NamespaceObj where
  name : String
deriving DecidableEq, Repr

/-- An admission request, restricted to what `handle` reads:
`req.Kind.Kind` and `req.Object.Raw`. -/
structure AdmissionRequest where
  kindKind : String
  objectRaw : String
deriving DecidableEq, Repr

/-- An admission response: `admission.Allowed` with a message,
`admission.Errored` with an HTTP code and error message, or
`admission.PatchResponseFromRaw` applied to the original raw object and
the re-serialized mutated object. -/
inductive AdmissionResponse where
  | allowed (msg : String)
  | errored (code : Nat) (msg : String)
  | patchFromRaw (originalRaw : String) (mutatedSerialized : String)
deriving DecidableEq, Repr

/-- Go `LabelForValidationResult`: the fixed result-to-label mapping with
a pending default. -/
def LabelForValidationResult (result : ValidationResult) : String :=
  if result = NoAction then ""
  else if result = Invalid then ValidationStatusReject
  else if result = Valid then ValidationStatusSuccess
  else if result = ServiceUnavailable then ValidationStatusPending
  else ValidationStatusPending

/-- Go `labelPod`: map the result to a label value; an empty value leaves
the pod untouched, otherwise deep-copy, create the label map when it is
nil, and set the validation-status label. -/
def labelPod (result : ValidationResult) (pod : Pod) : Pod :=
  let labelToApply := LabelForValidationResult result
  if labelToApply = "" then pod
  else
    let labels :=
      match pod.labels with
      | none => []
      | some m => m
    { pod with labels := some (mapInsert labels PodValidationLabel labelToApply) }

/-- The external collaborators of `handle`: the admission decoder, the
cluster namespace read, the `PodValidator`, and JSON serialization. -/
structure HandleEnv where
  decode : AdmissionRequest → Except String Pod
  getNamespace : String → Except String NamespaceObj
  validatePod : Pod → NamespaceObj → Except String ValidationResult
  marshal : Pod → Except String String

/-- Go `DefaultingWebHook.handle`: dispatch on kind, decode, fetch the
namespace, run the pod validator, then either allow unmodified on
`NoAction` or answer with a patch built from the labeled pod. -/
def handle (env : HandleEnv) (req : AdmissionRequest) : AdmissionResponse :=
  if req.kindKind ≠ PodType then
    .errored 400 ("Invalid request kind:" ++ req.kindKind ++ ", expected:" ++ PodType)
  else
    match env.decode req with
    | .error e => .errored 500 e
    | .ok pod =>
      match env.getNamespace pod.namespaceName with
      | .error e => .errored 500 e
      | .ok ns =>
        match env.validatePod pod ns with
        | .error e => .errored 500 e
        | .ok result =>
          if result = NoAction then .allowed "validation is not enabled for pod"
          else
            match env.marshal (labelPod result pod) with
            | .error e => .errored 500 e
            | .ok fBytes => .patchFromRaw req.objectRaw fBytes

/-- Go `DefaultingWebHook.handleWithTimeout`: race the inner handling
against the context deadline. The select between the `done` channel and
`ctxTimeout.Done()` is genuine scheduling nondeterminism, resolved here by
the `deadlineElapsedFirst` oracle; `ctxErr` is what `ctxTimeout.Err()`
reports once the deadline channel has fired (the context contract makes it
non-nil, carried here as a hypothesis of the theorems). -/
def handleWithTimeout (env : HandleEnv) (timeoutStr : String)
    (req : AdmissionRequest) (deadlineElapsedFirst : Bool)
    (ctxErr : Option String) : AdmissionResponse :=
  let resp := handle env req
  if deadlineElapsedFirst then
    match ctxErr with
    | some e =>
        .errored 408 ("request exceeded desired timeout: " ++ timeoutStr ++ ": " ++ e)
    | none => resp
  else resp

/-! Concrete sample collaborators, used to instantiate theorems on closed
inputs. -/

/-- Sample parsed reference. -/
def sampleRef : Reference :=
  { registryHost := "registry.example"
  , repoName := "registry.example/app/img"
  , identifier := "v1" }

/-- A factory whose single client answers every target lookup with the
given result. -/
def sampleFactory (target : Except String NotaryTarget) : RepoFactory :=
  { newRepoClient := fun _ => .ok { getTargetByName := fun _ => target } }

/-- A registry oracle always serving a single-image descriptor with the
given digest hex strings. -/
def sampleRegistry (digestHex manifestHex : String) : RemoteRegistry :=
  { get := fun _ => .ok { mediaKind := .image }
  , index := fun _ => .error "unused"
  , image := fun _ =>
      .ok { manifestConfigHex := .ok manifestHex, digestHex := .ok digestHex } }

/-- Environment where parsing succeeds and the collaborators behave as
given. -/
def sampleEnv (target : Except String NotaryTarget) (digestHex manifestHex : String) :
    ValidationEnv :=
  { parseReference := fun _ => .ok sampleRef
  , factory := sampleFactory target
  , registry := fun _ => sampleRegistry digestHex manifestHex }

/-- Empty allow-list configuration. -/
def emptyCfg : ServiceConfig := { allowedRegistries := [] }

/-- Allow-list configuration with one prefix. -/
def allowCfg : ServiceConfig := { allowedRegistries := ["allowed.example/"] }

/-- Environment whose reference parser always fails, used to exercise the
allow-list short-circuit on a malformed image string. -/
def failParseEnv : ValidationEnv :=
  { parseReference := fun _ => .error "could not parse reference"
  , factory := sampleFactory (.error "unused")
  , registry := fun _ => sampleRegistry "00" "00" }

/-- Sample trust-authority answer carrying exactly one digest. -/
def sampleTarget : Except String NotaryTarget :=
  .ok { hashes := [("sha256", [10, 20])] }

/-- Looked-up validation-status label of a pod (`none` when the label map
is nil or the key is absent). -/
def podLabel (p : Pod) : Option String :=
  match p.labels with
  | none => none
  | some m => lookupKey m PodValidationLabel

/-- Sample trust-authority target carrying two digests. -/
def twoHashTarget : NotaryTarget :=
  { hashes := [("sha256", [1]), ("sha512", [2])] }

/-- Factory whose client construction fails with a message carrying the
no-trust-data phrasing. -/
def noTrustDataFactory : RepoFactory :=
  { newRepoClient := fun _ =>
      .error "registry.example/app/img does not have trust data for repository" }

/-- Registry oracle that refuses every request. -/
def downRegistry : RemoteRegistry :=
  { get := fun _ => .error "connection refused"
  , index := fun _ => .error "connection refused"
  , image := fun _ => .error "connection refused" }

/-- Sample pod with a nil label map. -/
def samplePod : Pod := { name := "app", namespaceName := "default", labels := none }

/-- Sample namespace object. -/
def sampleNs : NamespaceObj := { name := "default" }

/-- Sample admission request for a pod. -/
def sampleReq : AdmissionRequest := { kindKind := "Pod", objectRaw := "rawpod" }

/-- Handle environment whose validator answers with the given result. -/
def sampleHandleEnv (result : ValidationResult) : HandleEnv :=
  { decode := fun _ => .ok samplePod
  , getNamespace := fun _ => .ok sampleNs
  , validatePod := fun _ _ => .ok result
  , marshal := fun _ => .ok "serialized" }

/-! Helper lemmas. -/

lemma nat_lor_eq_zero_iff (a b : Nat) : Nat.lor a b = 0 ↔ a = 0 ∧ b = 0 := by
  have h₀ : Nat.lor a b = a ||| b := rfl
  rw [h₀]
  constructor
  · intro h
    have ha : a = 0 := Nat.zero_of_testBit_eq_false fun i => by
      have h₁ := congrArg (fun n => Nat.testBit n i) h
      simp only [Nat.testBit_or, Nat.zero_testBit, Bool.or_eq_false_iff] at h₁
      exact h₁.1
    have hb : b = 0 := Nat.zero_of_testBit_eq_false fun i => by
      have h₁ := congrArg (fun n => Nat.testBit n i) h
      simp only [Nat.testBit_or, Nat.zero_testBit, Bool.or_eq_false_iff] at h₁
      exact h₁.2
    exact ⟨ha, hb⟩
  · rintro ⟨rfl, rfl⟩
    rfl

lemma foldl_lor_eq_zero_iff (l : List Nat) (acc : Nat) :
    l.foldl Nat.lor acc = 0 ↔ acc = 0 ∧ ∀ x ∈ l, x = 0 := by
  induction l generalizing acc with
  | nil => simp
  | cons h t ih =>
    simp only [List.foldl_cons, ih, nat_lor_eq_zero_iff, List.mem_cons]
    constructor
    · rintro ⟨⟨h₁, h₂⟩, h₃⟩
      exact ⟨h₁, fun x hx => hx.elim (fun hx₂ => hx₂ ▸ h₂) (h₃ x)⟩
    · rintro ⟨h₁, h₂⟩
      exact ⟨⟨h₁, h₂ h (Or.inl rfl)⟩, fun x hx => h₂ x (Or.inr hx)⟩

lemma zipWith_xor_zero_iff (x y : Bytes) (hlen : x.length = y.length) :
    (∀ z ∈ List.zipWith Nat.xor x y, z = 0) ↔ x = y := by
  induction x generalizing y with
  | nil =>
    cases y with
    | nil => simp
    | cons b ys => simp at hlen
  | cons a xs ih =>
    cases y with
    | nil => simp at hlen
    | cons b ys =>
      simp only [List.length_cons, Nat.succ.injEq] at hlen
      simp only [List.zipWith_cons_cons, List.forall_mem_cons, List.cons.injEq]
      rw [ih ys hlen]
      constructor
      · rintro ⟨h₁, h₂⟩
        exact ⟨Nat.xor_eq_zero.mp h₁, h₂⟩
      · rintro ⟨h₁, h₂⟩
        exact ⟨Nat.xor_eq_zero.mpr h₁, h₂⟩

/-- The constant-time comparison succeeds exactly on byte-equal inputs. -/
lemma constantTimeCompare_eq_one_iff (x y : Bytes) :
    constantTimeCompare x y = 1 ↔ x = y := by
  constructor
  · intro h
    unfold constantTimeCompare at h
    by_cases hlen : x.length = y.length
    · rw [if_pos hlen] at h
      by_cases hz : (List.zipWith Nat.xor x y).foldl Nat.lor 0 = 0
      · rw [foldl_lor_eq_zero_iff] at hz
        exact (zipWith_xor_zero_iff x y hlen).mp hz.2
      · rw [if_neg hz] at h
        simp at h
    · rw [if_neg hlen] at h
      simp at h
  · rintro rfl
    unfold constantTimeCompare
    rw [if_pos rfl, if_pos]
    exact (foldl_lor_eq_zero_iff _ _).mpr ⟨rfl, (zipWith_xor_zero_iff x x rfl).mpr rfl⟩

lemma lookupKey_mapInsert (m : List (String × String)) (k v : String) :
    lookupKey (mapInsert m k v) k = some v := by
  induction m with
  | nil => simp [mapInsert, lookupKey]
  | cons p rest ih =>
    obtain ⟨k₂, v₂⟩ := p
    by_cases h : k₂ = k
    · simp [mapInsert, h, lookupKey]
    · simp [mapInsert, h, lookupKey, ih]

lemma set_ne_of_get_ne (l : Bytes) (i : Nat) (v : Nat) (hi : i < l.length)
    (hv : v ≠ l.get ⟨i, hi⟩) : l.set i v ≠ l := by
  intro h
  apply hv
  have hi₂ : i < (l.set i v).length := by simpa using hi
  have h₁ : (l.set i v).get ⟨i, hi₂⟩ = v := by
    simp [List.get_eq_getElem, List.getElem_set_self]
  have h₂ := List.get_of_eq h ⟨i, hi₂⟩
  rw [h₁] at h₂
  exact h₂

lemma LabelForValidationResult_ne_empty (r : ValidationResult) (h : r ≠ NoAction) :
    LabelForValidationResult r ≠ "" := by
  unfold LabelForValidationResult
  rw [if_neg h]
  split
  · decide
  · split
    · decide
    · split
      · decide
      · decide

lemma validate_of_allowed (cfg : ServiceConfig) (env : ValidationEnv)
    (image : String) (creds : List (String × AuthConfig))
    (h : isImageAllowed cfg image = true) :
    Validate cfg env image creds = .ok () := by
  simp [Validate, h]

lemma validate_verdict (cfg : ServiceConfig) (env : ValidationEnv)
    (image : String) (creds : List (String × AuthConfig)) (ref : Reference)
    (expected sha : Bytes) (shaM : Option Bytes)
    (hAllow : isImageAllowed cfg image = false)
    (hParse : env.parseReference image = .ok ref)
    (hNotary : getNotaryImageDigestHash env.factory ref = .ok expected)
    (hReg : getRepositoryDigestHash (env.registry ref) ref creds = .ok (sha, shaM)) :
    Validate cfg env image creds =
      (if sha = expected then .ok ()
       else
         match shaM with
         | some m =>
           if m = expected then .ok ()
           else .error (.validationFailed "unexpected image hash value")
         | none => .error (.validationFailed "unexpected image hash value")) := by
  cases shaM with
  | none =>
    simp only [Validate, hAllow, Bool.false_eq_true, if_false, hParse, hNotary, hReg]
    by_cases h₁ : sha = expected
    · rw [if_pos ((constantTimeCompare_eq_one_iff sha expected).mpr h₁), if_pos h₁]
    · rw [if_neg (fun hc => h₁ ((constantTimeCompare_eq_one_iff sha expected).mp hc)),
        if_neg h₁]
  | some m =>
    simp only [Validate, hAllow, Bool.false_eq_true, if_false, hParse, hNotary, hReg]
    by_cases h₁ : sha = expected
    · rw [if_pos ((constantTimeCompare_eq_one_iff sha expected).mpr h₁), if_pos h₁]
    · rw [if_neg (fun hc => h₁ ((constantTimeCompare_eq_one_iff sha expected).mp hc)),
        if_neg h₁]
      by_cases h₂ : m = expected
      · rw [if_pos ((constantTimeCompare_eq_one_iff m expected).mpr h₂), if_pos h₂]
      · rw [if_neg (fun hc => h₂ ((constantTimeCompare_eq_one_iff m expected).mp hc)),
          if_neg h₂]

/-! Claim theorems. -/

/-- C1: in a validation call where the image is not allow-listed, the
image string parses strictly, and both the trust-authority digest fetch
and the registry digest fetch succeed, `Validate` returns success when
the primary registry digest byte-equals the expected digest; otherwise,
when a legacy manifest digest was returned and byte-equals the expected
digest, it returns success; otherwise it returns the `ValidationFailed`
error "unexpected image hash value". -/
theorem validate_digest_verdict (cfg : ServiceConfig) (env : ValidationEnv)
    (image : String) (creds : List (String × AuthConfig)) (ref : Reference)
    (expected sha : Bytes) (shaM : Option Bytes)
    (hAllow : isImageAllowed cfg image = false)
    (hParse : env.parseReference image = .ok ref)
    (hNotary : getNotaryImageDigestHash env.factory ref = .ok expected)
    (hReg : getRepositoryDigestHash (env.registry ref) ref creds = .ok (sha, shaM)) :
    Validate cfg env image creds =
      (if sha = expected then .ok ()
       else
         match shaM with
         | some m =>
           if m = expected then .ok ()
           else .error (.validationFailed "unexpected image hash value")
         | none => .error (.validationFailed "unexpected image hash value")) :=
  validate_verdict cfg env image creds ref expected sha shaM hAllow hParse hNotary hReg

/-- Witness for C1: a concrete run with matching digests. -/
theorem validate_digest_verdict_witness :
    Validate emptyCfg (sampleEnv sampleTarget "0a14" "ffff")
      "registry.example/app/img:v1" [] =
      (if ([10, 20] : Bytes) = [10, 20] then Except.ok ()
       else
         match (some [255, 255] : Option Bytes) with
         | some m =>
           if m = [10, 20] then Except.ok ()
           else Except.error (.validationFailed "unexpected image hash value")
         | none => Except.error (.validationFailed "unexpected image hash value")) :=
  validate_digest_verdict emptyCfg (sampleEnv sampleTarget "0a14" "ffff")
    "registry.example/app/img:v1" [] sampleRef [10, 20] [10, 20] (some [255, 255])
    rfl rfl rfl rfl

/-- C2: an allow-listed image short-circuits to success for every
environment and credential map, so neither the trust authority nor the
registry is consulted; membership is exactly "the full reference string
starts with one configured prefix"; and permuting the configured prefixes
never changes the outcome. -/
theorem allowlist_semantics (cfg : ServiceConfig) (image : String) :
    (isImageAllowed cfg image = true →
       ∀ (env : ValidationEnv) (creds : List (String × AuthConfig)),
         Validate cfg env image creds = .ok ()) ∧
    (isImageAllowed cfg image = true ↔
       ∃ p ∈ cfg.allowedRegistries, p.data <+: image.data) ∧
    (∀ cfg₂ : ServiceConfig, cfg.allowedRegistries.Perm cfg₂.allowedRegistries →
       isImageAllowed cfg image = isImageAllowed cfg₂ image) := by
  refine ⟨fun h env creds => validate_of_allowed cfg env image creds h, ?_, ?_⟩
  · simp [isImageAllowed, List.any_eq_true, strHasPrefix, List.isPrefixOf_iff_prefix]
  · intro cfg₂ hp
    rw [Bool.eq_iff_iff]
    simp only [isImageAllowed, List.any_eq_true]
    constructor
    · rintro ⟨p, hmem, hsw⟩
      exact ⟨p, hp.mem_iff.mp hmem, hsw⟩
    · rintro ⟨p, hmem, hsw⟩
      exact ⟨p, hp.mem_iff.mpr hmem, hsw⟩

/-- Witness for C2: a concrete allow-listed image validates successfully
in an environment whose parser and collaborators would all fail. -/
theorem allowlist_semantics_witness :
    Validate allowCfg failParseEnv "allowed.example/app:v1" [] = Except.ok () :=
  (allowlist_semantics allowCfg "allowed.example/app:v1").1 (by decide) failParseEnv []

/-- C10: the allow-list check precedes strict parsing: an allow-listed
image string validates successfully even when reference parsing fails, so
the parse-failure validation error never arises for an allow-listed
string. -/
theorem allowlist_precedes_parsing (cfg : ServiceConfig) (env : ValidationEnv)
    (image : String) (creds : List (String × AuthConfig)) (e : String)
    (hAllow : isImageAllowed cfg image = true)
    (hParse : env.parseReference image = .error e) :
    Validate cfg env image creds = .ok () ∧
    Validate cfg env image creds ≠
      .error (.validationFailed ("image name could not be parsed: " ++ e)) := by
  have h := validate_of_allowed cfg env image creds hAllow
  refine ⟨h, ?_⟩
  rw [h]
  intro hc
  cases hc

/-- Witness for C10: a malformed but allow-listed image string. -/
theorem allowlist_precedes_parsing_witness :
    Validate allowCfg failParseEnv "allowed.example/123###" [] = Except.ok () ∧
    Validate allowCfg failParseEnv "allowed.example/123###" [] ≠
      Except.error (.validationFailed
        ("image name could not be parsed: " ++ "could not parse reference")) :=
  allowlist_precedes_parsing allowCfg failParseEnv "allowed.example/123###" []
    "could not parse reference" (by decide) rfl

/-- C3 counterexample: a run whose registry digest is a one-byte flip of
the trust-authority digest can still validate successfully, because the
deprecated manifest fallback digest equals the expected digest; the claim
predicts failure for every such flip. -/
theorem validate_flip_counterexample :
    getNotaryImageDigestHash (sampleEnv sampleTarget "0b14" "0a14").factory sampleRef =
      .ok [10, 20] ∧
    getRepositoryDigestHash ((sampleEnv sampleTarget "0b14" "0a14").registry sampleRef)
      sampleRef [] = .ok ([11, 20], some [10, 20]) ∧
    ([11, 20] : Bytes) = List.set [10, 20] 0 11 ∧
    (11 : Nat) ≠ 10 ∧
    Validate emptyCfg (sampleEnv sampleTarget "0b14" "0a14")
      "registry.example/app/img:v1" [] = .ok () :=
  ⟨rfl, rfl, rfl, by decide, rfl⟩

/-- C3 (amended): a run whose registry digest byte-equals the
trust-authority digest succeeds; flipping a single byte of either digest
turns the verdict into the "unexpected image hash value" failure provided
the legacy manifest digest, when present, does not itself equal the
expected digest of the flipped run (the deprecated fallback can otherwise
still accept); the comparison is exact byte equality. -/
theorem validate_exact_byte_compare (cfg : ServiceConfig) (env : ValidationEnv)
    (image : String) (creds : List (String × AuthConfig)) (ref : Reference)
    (digest : Bytes) (shaM : Option Bytes) (i v : Nat)
    (hAllow : isImageAllowed cfg image = false)
    (hParse : env.parseReference image = .ok ref)
    (hNotary : getNotaryImageDigestHash env.factory ref = .ok digest)
    (hReg : getRepositoryDigestHash (env.registry ref) ref creds = .ok (digest, shaM))
    (hi : i < digest.length)
    (hv : v ≠ digest.get ⟨i, hi⟩)
    (hM : shaM ≠ some digest)
    (hM₂ : shaM ≠ some (digest.set i v)) :
    Validate cfg env image creds = .ok () ∧
    (∀ env₂ : ValidationEnv,
       env₂.parseReference image = .ok ref →
       getNotaryImageDigestHash env₂.factory ref = .ok digest →
       getRepositoryDigestHash (env₂.registry ref) ref creds =
         .ok (digest.set i v, shaM) →
       Validate cfg env₂ image creds =
         .error (.validationFailed "unexpected image hash value")) ∧
    (∀ env₂ : ValidationEnv,
       env₂.parseReference image = .ok ref →
       getNotaryImageDigestHash env₂.factory ref = .ok (digest.set i v) →
       getRepositoryDigestHash (env₂.registry ref) ref creds = .ok (digest, shaM) →
       Validate cfg env₂ image creds =
         .error (.validationFailed "unexpected image hash value")) := by
  have hne := set_ne_of_get_ne digest i v hi hv
  refine ⟨?_, ?_, ?_⟩
  · rw [validate_verdict cfg env image creds ref digest digest shaM
      hAllow hParse hNotary hReg]
    simp
  · intro env₂ hParse₂ hNotary₂ hReg₂
    rw [validate_verdict cfg env₂ image creds ref digest (digest.set i v) shaM
      hAllow hParse₂ hNotary₂ hReg₂]
    cases shaM with
    | none => simp [hne]
    | some m =>
      have hm : m ≠ digest := fun h => hM (by rw [h])
      simp [hne, hm]
  · intro env₂ hParse₂ hNotary₂ hReg₂
    rw [validate_verdict cfg env₂ image creds ref (digest.set i v) digest shaM
      hAllow hParse₂ hNotary₂ hReg₂]
    have hne₂ : digest ≠ digest.set i v := fun h => hne h.symm
    cases shaM with
    | none => simp [hne₂]
    | some m =>
      have hm : m ≠ digest.set i v := fun h => hM₂ (by rw [h])
      simp [hne₂, hm]

/-- Witness for C3 (amended): a concrete matching run succeeds. -/
theorem validate_exact_byte_compare_witness :
    Validate emptyCfg (sampleEnv sampleTarget "0a14" "ffff")
      "registry.example/app/img:v1" [] = .ok () :=
  (validate_exact_byte_compare emptyCfg (sampleEnv sampleTarget "0a14" "ffff")
    "registry.example/app/img:v1" [] sampleRef [10, 20] (some [255, 255]) 0 11
    rfl rfl rfl rfl (by decide) (by decide) (by decide) (by decide)).1

/-- C5: when the trust-authority lookup returns a target without error,
zero hashes fail with the `ValidationFailed` error "image hash is
missing", more than one hash fails with the `ValidationFailed` error
"more than one hash for image", and exactly one hash yields its digest. -/
theorem notary_hash_cardinality (factory : RepoFactory) (ref : Reference)
    (c : RepoClient) (target : NotaryTarget)
    (hc : factory.newRepoClient ref.repoName = .ok c)
    (ht : c.getTargetByName ref.identifier = .ok target) :
    (target.hashes = [] →
       getNotaryImageDigestHash factory ref =
         .error (.validationFailed "image hash is missing")) ∧
    (target.hashes.length > 1 →
       getNotaryImageDigestHash factory ref =
         .error (.validationFailed "more than one hash for image")) ∧
    (∀ k h, target.hashes = [(k, h)] →
       getNotaryImageDigestHash factory ref = .ok h) := by
  refine ⟨?_, ?_, ?_⟩
  · intro h₀
    simp only [getNotaryImageDigestHash, hc, ht, h₀]
  · intro hgt
    match h₂ : target.hashes with
    | [] => rw [h₂] at hgt; simp at hgt
    | [a] => rw [h₂] at hgt; simp at hgt
    | a :: b :: t => simp only [getNotaryImageDigestHash, hc, ht, h₂]
  · intro k h hEq
    simp only [getNotaryImageDigestHash, hc, ht, hEq]

/-- Witness for C5: a concrete two-hash target is rejected. -/
theorem notary_hash_cardinality_witness :
    getNotaryImageDigestHash (sampleFactory (.ok twoHashTarget)) sampleRef =
      .error (.validationFailed "more than one hash for image") :=
  (notary_hash_cardinality (sampleFactory (.ok twoHashTarget)) sampleRef
    { getTargetByName := fun _ => .ok twoHashTarget } twoHashTarget rfl rfl).2.1
    (by decide)

/-- C6 counterexample: a client-construction error whose message carries
the no-trust-data phrasing is returned as `UnknownResult`, not as the
`ValidationFailed` the claim requires for every trust-authority error with
that phrasing. -/
theorem notary_construction_error_counterexample :
    getNotaryImageDigestHash noTrustDataFactory sampleRef =
      .error (.unknownResult
        "registry.example/app/img does not have trust data for repository") ∧
    strContains "registry.example/app/img does not have trust data for repository"
      "does not have trust data for" = true ∧
    (Except.error (WardenErr.unknownResult
        "registry.example/app/img does not have trust data for repository") :
        Except WardenErr Bytes) ≠
      .error (.validationFailed
        "registry.example/app/img does not have trust data for repository") := by
  refine ⟨rfl, by decide, ?_⟩
  intro h
  injection h with h₂
  cases h₂

/-- C6 (amended): lookup (`GetTargetByName`) errors are classified by
message text - the two known no-trust-data phrasings become
`ValidationFailed`, every other message becomes `UnknownResult` - while
client-construction errors are always returned as `UnknownResult`,
regardless of their message. -/
theorem notary_error_classification (factory : RepoFactory) (ref : Reference)
    (e : String) :
    (factory.newRepoClient ref.repoName = .error e →
       getNotaryImageDigestHash factory ref = .error (.unknownResult e)) ∧
    (∀ c, factory.newRepoClient ref.repoName = .ok c →
       c.getTargetByName ref.identifier = .error e →
       getNotaryImageDigestHash factory ref = .error (parseNotaryErr e)) ∧
    ((strContains e "does not have trust data for" = true ∨
        strContains e "No valid trust data for" = true) →
       parseNotaryErr e = .validationFailed e) ∧
    (strContains e "does not have trust data for" = false →
       strContains e "No valid trust data for" = false →
       parseNotaryErr e = .unknownResult e) := by
  refine ⟨?_, ?_, ?_, ?_⟩
  · intro h
    simp only [getNotaryImageDigestHash, h]
  · intro c hc hkt
    simp only [getNotaryImageDigestHash, hc, hkt]
  · rintro (h | h)
    · simp [parseNotaryErr, h]
    · simp [parseNotaryErr, h]
  · intro h₁ h₂
    simp [parseNotaryErr, h₁, h₂]

/-- Witness for C6 (amended): a lookup error carrying the first phrasing
is reclassified as a validation failure. -/
theorem notary_error_classification_witness :
    parseNotaryErr "remote does not have trust data for registry.example/app/img" =
      .validationFailed "remote does not have trust data for registry.example/app/img" :=
  (notary_error_classification noTrustDataFactory sampleRef
    "remote does not have trust data for registry.example/app/img").2.2.1
    (Or.inl (by decide))

/-- C7: when the anonymous descriptor fetch fails and no credential is
keyed under the registry host of the image, the registry digest fetch fails
with an `UnknownResult` error and never with a `ValidationFailed` one. -/
theorem anon_fetch_no_credentials_unknown (reg : RemoteRegistry) (ref : Reference)
    (creds : List (String × AuthConfig)) (e : String)
    (hFetch : reg.get none = .error e)
    (hNoCred : lookupKey creds ref.registryHost = none) :
    getRepositoryDigestHash reg ref creds =
      .error (.unknownResult ("get image descriptor anonymously: " ++ e)) ∧
    ∀ m, getRepositoryDigestHash reg ref creds ≠ .error (.validationFailed m) := by
  have h : getRepositoryDigestHash reg ref creds =
      .error (.unknownResult ("get image descriptor anonymously: " ++ e)) := by
    simp only [getRepositoryDigestHash, hFetch, hNoCred]
  refine ⟨h, fun m hc => ?_⟩
  rw [h] at hc
  cases hc

/-- Witness for C7: an unreachable registry with no credentials on file. -/
theorem anon_fetch_no_credentials_unknown_witness :
    getRepositoryDigestHash downRegistry sampleRef [] =
      .error (.unknownResult ("get image descriptor anonymously: " ++ "connection refused")) :=
  (anon_fetch_no_credentials_unknown downRegistry sampleRef [] "connection refused"
    rfl rfl).1

lemma parseCredentials_not_unknown (c : AuthConfig) (m : String) :
    parseCredentials c ≠ .error (.unknownResult m) := by
  intro hc
  unfold parseCredentials at hc
  by_cases h₁ : c.username ≠ "" ∧ c.password ≠ ""
  · rw [if_pos h₁] at hc
    cases hc
  · rw [if_neg h₁] at hc
    by_cases h₂ : c.registryToken ≠ ""
    · rw [if_pos h₂] at hc
      cases hc
    · rw [if_neg h₂] at hc
      by_cases h₃ : c.auth ≠ ""
      · rw [if_pos h₃] at hc
        cases hDec : base64Decode c.auth with
        | none =>
          simp only [hDec] at hc
          injection hc with h₄
          cases h₄
        | some bs =>
          simp only [hDec] at hc
          match h₄ : splitOnByte 58 bs with
          | [u, p] =>
            simp only [h₄] at hc
            cases hc
          | [] =>
            simp only [h₄] at hc
            injection hc with h₅
            cases h₅
          | [u] =>
            simp only [h₄] at hc
            injection hc with h₅
            cases h₅
          | u :: p :: d :: t =>
            simp only [h₄] at hc
            injection hc with h₅
            cases h₅
      · rw [if_neg h₃] at hc
        injection hc with h₄
        cases h₄

/-- C8: credential resolution is a pure classification of its input
record: non-empty username and password give a basic authenticator; else a
registry token gives a bearer authenticator; else an "auth" string is
base64-decoded and must split into exactly one colon-separated pair,
giving a basic authenticator on success and the "invalid auth format"
`ValidationFailed` error otherwise; a record matching none of these gives
the "unknown auth secret format" `ValidationFailed` error; and no outcome
is ever an `UnknownResult` error. -/
theorem parseCredentials_pure_classification (c : AuthConfig) :
    (c.username ≠ "" → c.password ≠ "" →
       parseCredentials c = .ok (.basic c.username c.password)) ∧
    ((c.username = "" ∨ c.password = "") → c.registryToken ≠ "" →
       parseCredentials c = .ok (.bearer c.registryToken)) ∧
    (∀ bs u p, (c.username = "" ∨ c.password = "") → c.registryToken = "" →
       c.auth ≠ "" → base64Decode c.auth = some bs → splitOnByte 58 bs = [u, p] →
       parseCredentials c = .ok (.basic (bytesToString u) (bytesToString p))) ∧
    (∀ bs, (c.username = "" ∨ c.password = "") → c.registryToken = "" →
       c.auth ≠ "" → base64Decode c.auth = some bs →
       (splitOnByte 58 bs).length ≠ 2 →
       parseCredentials c =
         .error (.validationFailed "invalid auth format, expected username:password form")) ∧
    ((c.username = "" ∨ c.password = "") → c.registryToken = "" → c.auth = "" →
       parseCredentials c = .error (.validationFailed "unknown auth secret format")) ∧
    (∀ m, parseCredentials c ≠ .error (.unknownResult m)) := by
  refine ⟨?_, ?_, ?_, ?_, ?_, parseCredentials_not_unknown c⟩
  · intro hu hp
    unfold parseCredentials
    rw [if_pos ⟨hu, hp⟩]
  · intro hor hrt
    have h₁ : ¬(c.username ≠ "" ∧ c.password ≠ "") := by
      rcases hor with h | h
      · exact fun hc => hc.1 h
      · exact fun hc => hc.2 h
    unfold parseCredentials
    rw [if_neg h₁, if_pos hrt]
  · intro bs u p hor hrt hauth hDec hSplit
    have h₁ : ¬(c.username ≠ "" ∧ c.password ≠ "") := by
      rcases hor with h | h
      · exact fun hc => hc.1 h
      · exact fun hc => hc.2 h
    unfold parseCredentials
    rw [if_neg h₁, if_neg (fun h : c.registryToken ≠ "" => h hrt), if_pos hauth]
    simp only [hDec, hSplit]
  · intro bs hor hrt hauth hDec hLen
    have h₁ : ¬(c.username ≠ "" ∧ c.password ≠ "") := by
      rcases hor with h | h
      · exact fun hc => hc.1 h
      · exact fun hc => hc.2 h
    unfold parseCredentials
    rw [if_neg h₁, if_neg (fun h : c.registryToken ≠ "" => h hrt), if_pos hauth]
    simp only [hDec]
    match h₂ : splitOnByte 58 bs with
    | [u, p] =>
      rw [h₂] at hLen
      simp at hLen
    | [] => simp only [h₂]
    | [u] => simp only [h₂]
    | u :: p :: d :: t => simp only [h₂]
  · intro hor hrt hauth
    have h₁ : ¬(c.username ≠ "" ∧ c.password ≠ "") := by
      rcases hor with h | h
      · exact fun hc => hc.1 h
      · exact fun hc => hc.2 h
    unfold parseCredentials
    rw [if_neg h₁, if_neg (fun h : c.registryToken ≠ "" => h hrt),
      if_neg (fun h : c.auth ≠ "" => h hauth)]

/-- Witness for C8: the auth string holding the base64 of "u:p" resolves
to the basic authenticator for "u" and "p". -/
theorem parseCredentials_pure_classification_witness :
    parseCredentials { username := "", password := "", registryToken := "", auth := "dTpw" } =
      .ok (.basic (bytesToString [117]) (bytesToString [112])) :=
  (parseCredentials_pure_classification
      { username := "", password := "", registryToken := "", auth := "dTpw" }).2.2.1
    [117, 58, 112] [117] [112] (Or.inl rfl) rfl (by decide) (by decide) (by decide)

/-- C4: for an admission request that passes dispatch (kind `Pod`, decode
and namespace fetch succeed) and whose validator returns without error:
`NoAction` is allowed unmodified with an explanatory message; for any
other result the response is the JSON-patch built from the original raw
object and the serialized labeled pod, whose validation-status label
carries the fixed mapping (`Valid` → success, `Invalid` → reject,
`ServiceUnavailable` or anything unrecognized → pending), the label map
being created when absent. -/
theorem handle_outcome_mapping (env : HandleEnv) (req : AdmissionRequest)
    (pod : Pod) (ns : NamespaceObj) (result : ValidationResult)
    (hKind : req.kindKind = PodType)
    (hDecode : env.decode req = .ok pod)
    (hNs : env.getNamespace pod.namespaceName = .ok ns)
    (hVal : env.validatePod pod ns = .ok result) :
    (result = NoAction →
       handle env req = .allowed "validation is not enabled for pod") ∧
    (result ≠ NoAction →
       podLabel (labelPod result pod) = some (LabelForValidationResult result) ∧
       ∀ s, env.marshal (labelPod result pod) = .ok s →
         handle env req = .patchFromRaw req.objectRaw s) ∧
    LabelForValidationResult Valid = ValidationStatusSuccess ∧
    LabelForValidationResult Invalid = ValidationStatusReject ∧
    LabelForValidationResult ServiceUnavailable = ValidationStatusPending ∧
    (∀ r : ValidationResult, r ≠ NoAction → r ≠ Valid → r ≠ Invalid →
       LabelForValidationResult r = ValidationStatusPending) := by
  have hKindNe : ¬req.kindKind ≠ PodType := fun h => h hKind
  refine ⟨?_, ?_, by decide, by decide, by decide, ?_⟩
  · intro h₀
    simp only [handle, if_neg hKindNe, hDecode, hNs, hVal, if_pos h₀]
  · intro h₀
    constructor
    · simp only [podLabel, labelPod]
      rw [if_neg (LabelForValidationResult_ne_empty result h₀)]
      exact lookupKey_mapInsert _ _ _
    · intro s hs
      simp only [handle, if_neg hKindNe, hDecode, hNs, hVal, if_neg h₀, hs]
  · intro r h₀ h₁ h₂
    unfold LabelForValidationResult
    rw [if_neg h₀, if_neg h₂, if_neg h₁]
    by_cases h₃ : r = ServiceUnavailable
    · rw [if_pos h₃]
    · rw [if_neg h₃]

/-- Witness for C4: a `Valid` result labels the pod with the success value
and answers with the patch response. -/
theorem handle_outcome_mapping_witness :
    podLabel (labelPod Valid samplePod) = some (LabelForValidationResult Valid) ∧
    handle (sampleHandleEnv Valid) sampleReq = .patchFromRaw "rawpod" "serialized" := by
  have h := (handle_outcome_mapping (sampleHandleEnv Valid) sampleReq samplePod
    sampleNs Valid rfl rfl rfl rfl).2.1 (by decide)
  exact ⟨h.1, h.2 "serialized" rfl⟩

/-- C9: in the timeout layer, when the inner handling finishes before the
deadline its response is returned unchanged, and when the deadline elapses
first the inner result is discarded and the layer answers with an errored
response carrying HTTP status 408 whose message references the configured
timeout duration. -/
theorem handleWithTimeout_race (env : HandleEnv) (timeoutStr : String)
    (req : AdmissionRequest) (e : String) :
    (∀ ctxErr, handleWithTimeout env timeoutStr req false ctxErr = handle env req) ∧
    handleWithTimeout env timeoutStr req true (some e) =
      .errored 408 ("request exceeded desired timeout: " ++ timeoutStr ++ ": " ++ e) :=
  ⟨fun _ => rfl, rfl⟩

end Warden
